import Mathlib

/-
Verification of the authentication subsystem of the Online Bookstore backend
(NestJS + Prisma). The definitions below are a shallow embedding of
src/modules/auth/auth.service.ts (AuthService.register, AuthService.login,
AuthService.OAuthGoogleCallback), the AuthGuard (canActivate) and the
database schema from the Prisma migration (tables user, oauthaccount,
refresh_token and their unique indexes). Database state is threaded
explicitly as a value of type Db; Prisma calls become list operations;
thrown Nest exceptions become an Except error value; bcrypt is modelled
as a deterministic injective hash (salt and cost factor affect work, not
the functional contract); a signed JWT is modelled by the payload object
that was signed.
-/

namespace Bookstore

/-- Roles from the migration enum Role. -/
inductive Role
  | SUPER_ADMIN
  | ADMIN
  | SELLER
  | CUSTOMER
  | MODERATOR
deriving DecidableEq, Repr

/-- Providers from the migration enum OAuthProvider. -/
inductive OAuthProvider
  | Google
  | FACEBOOK
  | GITHUB
  | APPLE
deriving DecidableEq, Repr

/-- A row of the user table (the columns the auth subsystem reads or
writes: id, email, nullable password hash, nullable first and last name,
username, role with default CUSTOMER, and the isEmailVerified, isTwoFA
and isActive flags with defaults false, false, true). -/
structure User where
  id : Nat
  email : String
  password : Option String
  firstName : Option String
  lastName : Option String
  username : String
  role : Role
  isEmailVerified : Bool
  isTwoFA : Bool
  isActive : Bool
deriving DecidableEq, Repr

/-- A row of the oauthaccount table (id, owning userId, provider,
provider-assigned subject id). -/
structure OAuthAccount where
  id : Nat
  userId : Nat
  provider : OAuthProvider
  providerId : String
deriving DecidableEq, Repr

/-- A row of the refresh_token table (id, unique token string, owning
userId, expiry instant as a Nat clock). -/
structure RefreshToken where
  id : Nat
  token : String
  userId : Nat
  expiresAt : Nat
deriving DecidableEq, Repr

/-- The identity-store state: the three tables relevant to auth, plus a
fresh-id counter standing for the id generator of the database. -/
structure Db where
  users : List User
  oauthAccounts : List OAuthAccount
  refreshTokens : List RefreshToken
  nextId : Nat
deriving DecidableEq, Repr

/-- The payload object handed to jwt.signAsync, viewed as a partial
record of the fields any part of the system ever reads from a verified
token: the auth service signs objects of the form with only userId set,
while the AuthGuard destructures the fields id and role from a verified
payload. A missing field of the dynamic object is none. -/
structure JwtPayload where
  userId : Option Nat := none
  id : Option Nat := none
  role : Option Role := none
deriving DecidableEq, Repr

/-- The NestJS HTTP exceptions the auth code can throw, plus the other
client-error exceptions of the NestJS library that the spec taxonomy
refers to (NotFoundException, UnauthorizedException). -/
inductive HttpException
  | badRequest (msg : String)
  | unauthorized (msg : String)
  | forbidden (msg : String)
  | notFound (msg : String)
  | conflict (msg : String)
deriving DecidableEq, Repr

/-- The client-facing HTTP status of each NestJS exception class. -/
def statusOf : HttpException → Nat
  | .badRequest _ => 400
  | .unauthorized _ => 401
  | .forbidden _ => 403
  | .notFound _ => 404
  | .conflict _ => 409

/-- True exactly when a result is a thrown NotFoundException. -/
def isNotFoundError (r : Except HttpException (Db × JwtPayload)) : Bool :=
  match r with
  | .error (.notFound _) => true
  | _ => false

/-- Deterministic model of bcrypt.hash: the cost argument changes the
work factor, not the verification contract, so the modelled digest
records only the plaintext. -/
def bcryptHash (cost : Nat) (plaintext : String) : String :=
  let _ := cost
  "bcrypt$" ++ plaintext

/-- Model of bcrypt.compare: a digest matches exactly the plaintext it
was produced from. -/
def bcryptCompare (plaintext hash : String) : Bool :=
  hash == "bcrypt$" ++ plaintext

/-- db.user.findFirst with an email where-clause. -/
def findUserByEmail (db : Db) (email : String) : Option User :=
  db.users.find? (fun u => u.email == email)

/-- The verified Google profile handed to OAuthGoogleCallback by the
passport strategy: email, subject id, optional names, optional username
(absent or empty triggers the fallback in the service). -/
structure GoogleUser where
  email : String
  sub : String
  firstName : Option String
  lastName : Option String
  username : Option String
deriving DecidableEq, Repr

/-- Splits a character list at every occurrence of the separator, the
semantics of the JavaScript String.split with a one-character separator
(structural recursion so that it evaluates in the kernel). -/
def splitOnChar (c : Char) : List Char → List (List Char)
  | [] => [[]]
  | x :: xs =>
    match splitOnChar c xs with
    | [] => [[]]
    | y :: ys => if x = c then [] :: y :: ys else (x :: y) :: ys

/-- JavaScript s.split(sep) for a one-character separator. -/
def jsSplit (c : Char) (s : String) : List String :=
  (splitOnChar c s.data).map (fun cs => String.mk cs)

/-- user.username || user.email.split('@')[0] from OAuthGoogleCallback:
the JavaScript || falls through on an absent or empty username. -/
def usernameOf (gu : GoogleUser) : String :=
  match gu.username with
  | some s => if s == "" then (jsSplit '@' gu.email).headD "" else s
  | none => (jsSplit '@' gu.email).headD ""

/-- The user row created by OAuthGoogleCallback when no user carries the
asserted email: no password, names copied from the profile, every flag
left to its column default (isEmailVerified false, isTwoFA false,
isActive true, role CUSTOMER). -/
def newGoogleUser (db : Db) (gu : GoogleUser) : User :=
  { id := db.nextId
    email := gu.email
    password := none
    firstName := gu.firstName
    lastName := gu.lastName
    username := usernameOf gu
    role := .CUSTOMER
    isEmailVerified := false
    isTwoFA := false
    isActive := true }

/-- AuthService.OAuthGoogleCallback: find the user by email (including
the OAuthAccount relation); if absent, create the user and then a Google
OAuthAccount row and sign a token with the new user id; if present,
create the Google OAuthAccount row only when the user has none yet, and
sign a token with the found user id. -/
def OAuthGoogleCallback (db : Db) (gu : GoogleUser) : Db × JwtPayload :=
  match findUserByEmail db gu.email with
  | none =>
    let newUser := newGoogleUser db gu
    let db1 : Db := { db with users := db.users ++ [newUser], nextId := db.nextId + 1 }
    let acct : OAuthAccount :=
      { id := db1.nextId, userId := newUser.id, provider := .Google, providerId := gu.sub }
    let db2 : Db :=
      { db1 with oauthAccounts := db1.oauthAccounts ++ [acct], nextId := db1.nextId + 1 }
    (db2, { userId := some newUser.id })
  | some findUser =>
    let ownAccounts := db.oauthAccounts.filter (fun a => a.userId == findUser.id)
    match ownAccounts.find? (fun a => a.provider == OAuthProvider.Google) with
    | none =>
      let acct : OAuthAccount :=
        { id := db.nextId, userId := findUser.id, provider := .Google, providerId := gu.sub }
      let db1 : Db :=
        { db with oauthAccounts := db.oauthAccounts ++ [acct], nextId := db.nextId + 1 }
      (db1, { userId := some findUser.id })
    | some _ => (db, { userId := some findUser.id })

/-- The register request body. -/
structure RegisterData where
  email : String
  password : String
  firstName : String
  lastName : String
  username : String
deriving DecidableEq, Repr

/-- AuthService.register: throw ConflictException when a user with the
email exists; otherwise hash the password with bcrypt cost 12, create
the user and return a signed token carrying only the user id. -/
def register (db : Db) (data : RegisterData) :
    Except HttpException (Db × JwtPayload) :=
  match findUserByEmail db data.email with
  | some _ => .error (.conflict "User already exists")
  | none =>
    let hashedPassword := bcryptHash 12 data.password
    let user : User :=
      { id := db.nextId
        email := data.email
        password := some hashedPassword
        firstName := some data.firstName
        lastName := some data.lastName
        username := data.username
        role := .CUSTOMER
        isEmailVerified := false
        isTwoFA := false
        isActive := true }
    .ok ({ db with users := db.users ++ [user], nextId := db.nextId + 1 },
         { userId := some user.id })

/-- The login request body. -/
structure LoginData where
  email : String
  password : String
deriving DecidableEq, Repr

/-- AuthService.login: throw BadRequestException when the email is
unknown, when the stored password is absent, or when bcrypt.compare
fails; otherwise return a signed token carrying only the user id. The
service performs no write, so the state comes back unchanged. -/
def login (db : Db) (data : LoginData) :
    Except HttpException (Db × JwtPayload) :=
  match findUserByEmail db data.email with
  | none => .error (.badRequest "User not found!")
  | some find_user =>
    match find_user.password with
    | none => .error (.badRequest "password no set")
    | some stored =>
      if bcryptCompare data.password stored then
        .ok (db, { userId := some find_user.id })
      else
        .error (.badRequest "Email or Password incorrect")

/-- An incoming HTTP request as the AuthGuard sees it: the header map
(names exactly as stored by the framework) and the optional token
cookie. -/
structure GuardRequest where
  headers : List (String × String)
  cookieToken : Option String
deriving DecidableEq, Repr

/-- request.headers[nm]: the value of the first header with that exact
name, if any. -/
def getHeader (headers : List (String × String)) (nm : String) : Option String :=
  (headers.find? (fun h => h.1 == nm)).map (fun h => h.2)

/-- The token extraction of AuthGuard.canActivate, character for
character: it indexes the header map with the misspelled name
authoriztion, takes element 1 of the split on a space, and falls back to
the cookie when the result is undefined or the empty string (both falsy
in JavaScript). -/
def extractToken (req : GuardRequest) : Option String :=
  let headerToken : Option String :=
    match getHeader req.headers "authoriztion" with
    | none => none
    | some v => (jsSplit ' ' v)[1]?
  match headerToken with
  | none => req.cookieToken
  | some t => if t == "" then req.cookieToken else some t

/-- Outcome of the guard: either the request proceeds with request.user
set to the destructured pair of id and role fields of the verified
payload, or a ForbiddenException is thrown. -/
inductive GuardResult
  | allow (id : Option Nat) (role : Option Role)
  | forbidden (msg : String)
deriving DecidableEq, Repr

/-- AuthGuard.canActivate: extract the token; jwtService.verifyAsync
(modelled by the verification oracle, mapping exactly the validly signed
token strings to their payloads) throws on an absent or invalid token,
which the catch turns into ForbiddenException; on success request.user
is set to the id and role fields of the payload. -/
def canActivate (verify : String → Option JwtPayload) (req : GuardRequest) :
    GuardResult :=
  match extractToken req with
  | none => .forbidden "Token invalid"
  | some t =>
    match verify t with
    | none => .forbidden "Token invalid"
    | some p => .allow p.id p.role

/-- Modelled from the spec: the repository declares the refresh_token
table (with a unique index on the token column) but ships no
implementation of the Token Issuer rotation operation, so this
definition follows the spec wording of rotateRefreshToken: look up the
RefreshToken by value; fail with InvalidToken if absent or expired; on
success atomically delete the old record and issue a new pair. The
fresh opaque token string is supplied by the caller, standing for the
cryptographically random generator, and expiry is the new record expiry
instant. -/
def rotateRefreshToken (db : Db) (now : Nat) (oldToken freshToken : String)
    (expiry : Nat) : Except HttpException (Db × JwtPayload × String) :=
  match db.refreshTokens.find? (fun r => r.token == oldToken) with
  | none => .error (.unauthorized "InvalidToken")
  | some r =>
    if r.expiresAt ≤ now then
      .error (.unauthorized "InvalidToken")
    else
      let newRec : RefreshToken :=
        { id := db.nextId, token := freshToken, userId := r.userId, expiresAt := expiry }
      let db1 : Db :=
        { db with
            refreshTokens :=
              (db.refreshTokens.filter (fun x => !(x.token == oldToken))) ++ [newRec]
            nextId := db.nextId + 1 }
      .ok (db1, ({ userId := some r.userId }, freshToken))

/-- The users whose email column equals the given address. -/
def usersWithEmail (db : Db) (e : String) : List User :=
  db.users.filter (fun u => u.email == e)

/-- The oauthaccount rows of the given user for the Google provider. -/
def googleAccountsOf (db : Db) (uid : Nat) : List OAuthAccount :=
  db.oauthAccounts.filter
    (fun a => a.userId == uid && a.provider == OAuthProvider.Google)

/-- findUser.OAuthAccount.find on the Google provider: the first account
of the given user whose provider is Google. -/
def userGoogleAccount (db : Db) (uid : Nat) : Option OAuthAccount :=
  (db.oauthAccounts.filter (fun a => a.userId == uid)).find?
    (fun a => a.provider == OAuthProvider.Google)

/-- The storage-level invariants of the Prisma migration: the unique
index on user.email, the user primary key, the unique index on
(oauthaccount.userId, oauthaccount.provider), the foreign key from
oauthaccount.userId into user combined with id generation (every stored
id and referenced userId is below the fresh-id counter). -/
structure Wf (db : Db) : Prop where
  emailsUnique : db.users.Pairwise (fun a b => a.email ≠ b.email)
  idsUnique : db.users.Pairwise (fun a b => a.id ≠ b.id)
  acctKeyUnique :
    db.oauthAccounts.Pairwise
      (fun a b => ¬(a.userId = b.userId ∧ a.provider = b.provider))
  userIdsLt : ∀ u ∈ db.users, u.id < db.nextId
  acctUserIdsLt : ∀ a ∈ db.oauthAccounts, a.userId < db.nextId

/-- The empty identity store. -/
def emptyDb : Db :=
  { users := [], oauthAccounts := [], refreshTokens := [], nextId := 0 }

/-- Fixture: a register request for a fresh address. -/
def aliceReg : RegisterData :=
  { email := "alice@example.com", password := "pw123", firstName := "Alice",
    lastName := "L", username := "alice" }

/-- Fixture: a user that can only sign in through OAuth (no stored
password hash). -/
def oauthOnlyUser : User :=
  { id := 0, email := "oauth@example.com", password := none,
    firstName := none, lastName := none, username := "oauthy",
    role := .CUSTOMER, isEmailVerified := false, isTwoFA := false,
    isActive := true }

/-- Fixture: a password user whose stored hash matches the plaintext
correct-pw. -/
def pwUser : User :=
  { id := 1, email := "pw@example.com", password := some (bcryptHash 12 "correct-pw"),
    firstName := some "Pat", lastName := some "W", username := "pat",
    role := .CUSTOMER, isEmailVerified := false, isTwoFA := false,
    isActive := true }

/-- Fixture: a store holding the OAuth-only user and the password user. -/
def loginDb : Db :=
  { users := [oauthOnlyUser, pwUser], oauthAccounts := [], refreshTokens := [],
    nextId := 2 }

/-- Fixture: a password user with the two-factor flag enabled. -/
def twoFaUser : User :=
  { id := 0, email := "tfa@example.com", password := some (bcryptHash 12 "tfa-pw"),
    firstName := none, lastName := none, username := "tfa",
    role := .CUSTOMER, isEmailVerified := false, isTwoFA := true,
    isActive := true }

/-- Fixture: a store holding only the two-factor user. -/
def twoFaDb : Db :=
  { users := [twoFaUser], oauthAccounts := [], refreshTokens := [], nextId := 1 }

/-- Fixture: a deactivated user (isActive false). -/
def inactiveUser : User :=
  { id := 0, email := "gone@example.com", password := none,
    firstName := none, lastName := none, username := "gone",
    role := .CUSTOMER, isEmailVerified := false, isTwoFA := false,
    isActive := false }

/-- Fixture: a store holding only the deactivated user. -/
def inactiveDb : Db :=
  { users := [inactiveUser], oauthAccounts := [], refreshTokens := [], nextId := 1 }

/-- Fixture: a Google profile assertion for the deactivated address. -/
def goneGoogle : GoogleUser :=
  { email := "gone@example.com", sub := "google-sub-9", firstName := none,
    lastName := none, username := none }

/-- Fixture: a Google profile assertion for a fresh address. -/
def freshGoogle : GoogleUser :=
  { email := "new@example.com", sub := "google-sub-1", firstName := some "New",
    lastName := some "Comer", username := none }

/-- Fixture: the verification oracle of the guard counterexample: it
accepts exactly the string goodtoken, signed over a payload carrying
userId 7 the way the auth service signs tokens. -/
def guardVerify : String → Option JwtPayload := fun t =>
  if t == "goodtoken" then some { userId := some 7 } else none

/-- Fixture: a request presenting the valid token in a correctly spelled
authorization header, with no cookie. -/
def headerReq : GuardRequest :=
  { headers := [("authorization", "Bearer goodtoken")], cookieToken := none }

/-- Fixture: a request presenting the valid token in the cookie only. -/
def cookieReq : GuardRequest :=
  { headers := [], cookieToken := some "goodtoken" }

/-- Fixture: a refresh-token store with one live token for user 1. -/
def refreshDb : Db :=
  { users := [], oauthAccounts := [],
    refreshTokens := [{ id := 0, token := "tokenA", userId := 1, expiresAt := 100 }],
    nextId := 5 }

/-- Fixture: the user row that registering aliceReg on the empty store
creates. -/
def regAlice : User :=
  { id := 0, email := "alice@example.com",
    password := some "bcrypt$pw123", firstName := some "Alice",
    lastName := some "L", username := "alice", role := .CUSTOMER,
    isEmailVerified := false, isTwoFA := false, isActive := true }

/-- Fixture: a store already holding the alice row. -/
def aliceDb : Db :=
  { users := [regAlice], oauthAccounts := [], refreshTokens := [], nextId := 1 }

/-- Fixture: a Google profile assertion for the password-user address,
for exercising the account-merge branch of the callback. -/
def patGoogle : GoogleUser :=
  { email := "pw@example.com", sub := "google-sub-7", firstName := some "Pat",
    lastName := some "W", username := some "pat" }

/-- The store produced by the fresh-email branch of the callback: the
new user row followed by its Google account row. -/
def freshResultDb (db : Db) (gu : GoogleUser) : Db :=
  { db with
    users := db.users ++ [newGoogleUser db gu],
    oauthAccounts := db.oauthAccounts ++
      [(⟨db.nextId + 1, db.nextId, .Google, gu.sub⟩ : OAuthAccount)],
    nextId := db.nextId + 2 }

/-- The store produced by the account-merge branch of the callback: the
existing rows plus one Google account row for the matched user. -/
def linkResultDb (db : Db) (uid : Nat) (gu : GoogleUser) : Db :=
  { db with
    oauthAccounts := db.oauthAccounts ++
      [(⟨db.nextId, uid, .Google, gu.sub⟩ : OAuthAccount)],
    nextId := db.nextId + 1 }

end Bookstore

namespace Bookstore

section Lemmas

/-- If the first list holds no match, searching the concatenation
searches the second list. -/
theorem find?_append_of_none {α : Type} {l₁ l₂ : List α} {p : α → Bool}
    (h : l₁.find? p = none) : (l₁ ++ l₂).find? p = l₂.find? p := by
  simp [List.find?_append, h]

/-- A list with no match filters to the empty list. -/
theorem filter_eq_nil_of_find?_none {α : Type} {l : List α} {p : α → Bool}
    (h : l.find? p = none) : l.filter p = [] := by
  rw [List.filter_eq_nil_iff]
  intro x hx
  exact List.find?_eq_none.mp h x hx

/-- Under a pairwise guarantee that no two elements both satisfy the
predicate, the filter of a list around a known matching member is the
singleton of that member. -/
theorem filter_eq_singleton_of_pairwise {α : Type} {l : List α} {p : α → Bool}
    {a : α} (hp : l.Pairwise (fun x y => ¬(p x = true ∧ p y = true)))
    (ha : a ∈ l) (hpa : p a = true) : l.filter p = [a] := by
  induction l with
  | nil => cases ha
  | cons b t ih =>
    rw [List.pairwise_cons] at hp
    obtain ⟨hb, ht⟩ := hp
    rcases List.mem_cons.mp ha with rfl | hmem
    · rw [List.filter_cons, if_pos hpa, List.filter_eq_nil_iff.mpr]
      intro y hy hpy
      exact hb y hy ⟨hpa, hpy⟩
    · have hpb : ¬ p b = true := fun hpb => hb a hmem ⟨hpb, hpa⟩
      rw [List.filter_cons, if_neg (by simpa using hpb)]
      exact ih ht hmem

end Lemmas

end Bookstore

namespace Bookstore

/-- Claim C1 counterexample: registering a fresh email on the empty
store succeeds, but the successful result is one signed token whose
payload carries only the user id - no refresh token is returned and the
refresh-token table stays empty, refuting the claimed response shape of
an accessToken plus refreshToken plus user object. -/
theorem register_single_token_cx :
    register emptyDb aliceReg = .ok (aliceDb, { userId := some 0 })
    ∧ ((register emptyDb aliceReg).toOption.map
        (fun r => r.1.refreshTokens.length)) = some 0 :=
  ⟨rfl, rfl⟩

/-- Claim C1 (amended): register fails with ConflictException and
performs no write when a user with the email already exists; otherwise
it stores the bcrypt hash of the password (cost 12), creates the user
row with the column defaults, and returns a single signed token whose
payload is just the new user id - no refresh token and no user object
are part of the result. -/
theorem register_conflict_or_single_token (db : Db) (rd : RegisterData) :
    (findUserByEmail db rd.email ≠ none →
      register db rd = .error (.conflict "User already exists"))
    ∧ (findUserByEmail db rd.email = none →
      register db rd =
        .ok ({ db with
                users := db.users ++
                  [{ id := db.nextId, email := rd.email,
                     password := some (bcryptHash 12 rd.password),
                     firstName := some rd.firstName, lastName := some rd.lastName,
                     username := rd.username, role := .CUSTOMER,
                     isEmailVerified := false, isTwoFA := false, isActive := true }],
                nextId := db.nextId + 1 },
             { userId := some db.nextId })) := by
  constructor
  · intro h
    unfold register
    cases hf : findUserByEmail db rd.email with
    | none => exact absurd hf h
    | some fu => rfl
  · intro h
    unfold register
    rw [h]

/-- Claim C1 witness: on a store already holding the alice row, a second
register with the same email fails with ConflictException. -/
theorem register_conflict_or_single_token_witness :
    register aliceDb aliceReg = .error (.conflict "User already exists") :=
  (register_conflict_or_single_token aliceDb aliceReg).1 (by decide)

/-- Claim C2 counterexample: on a store holding an OAuth-only user and a
password user, an unknown email, a missing stored password and a wrong
password all fail with BadRequestException (HTTP 400), distinguished
only by message; in particular the unknown-email failure is not a
NotFoundException, refuting the claimed distinct NotFound versus
InvalidCredentials statuses. -/
theorem login_statuses_cx :
    login loginDb { email := "missing@example.com", password := "x" }
      = .error (.badRequest "User not found!")
    ∧ isNotFoundError
        (login loginDb { email := "missing@example.com", password := "x" }) = false
    ∧ login loginDb { email := "oauth@example.com", password := "x" }
      = .error (.badRequest "password no set")
    ∧ login loginDb { email := "pw@example.com", password := "wrong" }
      = .error (.badRequest "Email or Password incorrect")
    ∧ statusOf (.badRequest "User not found!")
      = statusOf (.badRequest "Email or Password incorrect") :=
  ⟨rfl, rfl, rfl, rfl, rfl⟩

/-- Claim C2 (amended): login fails with BadRequestException of message
User not found! when no user has the email, BadRequestException of
message password no set when the stored password is absent (OAuth-only
account), and BadRequestException of message Email or Password incorrect
on a mismatch; all three surface as the same client-facing status 400
and are distinguished only by their message strings. -/
theorem login_failures_all_bad_request (db : Db) (ld : LoginData) :
    (findUserByEmail db ld.email = none →
      login db ld = .error (.badRequest "User not found!"))
    ∧ (∀ fu, findUserByEmail db ld.email = some fu → fu.password = none →
        login db ld = .error (.badRequest "password no set"))
    ∧ (∀ fu h, findUserByEmail db ld.email = some fu → fu.password = some h →
        bcryptCompare ld.password h = false →
        login db ld = .error (.badRequest "Email or Password incorrect"))
    ∧ (∀ e, login db ld = .error e → statusOf e = 400) := by
  refine ⟨?_, ?_, ?_, ?_⟩
  · intro h
    simp [login, h]
  · intro fu hf hp
    simp [login, hf, hp]
  · intro fu h hf hp hc
    simp [login, hf, hp, hc]
  · intro e he
    cases hf : findUserByEmail db ld.email with
    | none =>
      simp only [login, hf, Except.error.injEq] at he
      subst he
      rfl
    | some fu =>
      cases hp : fu.password with
      | none =>
        simp only [login, hf, hp, Except.error.injEq] at he
        subst he
        rfl
      | some stored =>
        by_cases hc : bcryptCompare ld.password stored = true
        · simp [login, hf, hp, hc] at he
        · have hc' : bcryptCompare ld.password stored = false := by
            simpa using hc
          simp only [login, hf, hp, hc', Bool.false_eq_true, if_false,
            Except.error.injEq] at he
          subst he
          rfl

/-- Claim C2 witness: the unknown-email failure evaluated on the
fixture store. -/
theorem login_failures_all_bad_request_witness :
    login loginDb { email := "missing@example.com", password := "x" }
      = .error (.badRequest "User not found!") :=
  (login_failures_all_bad_request loginDb
    { email := "missing@example.com", password := "x" }).1 (by decide)

end Bookstore

namespace Bookstore

/-- Claim C5 counterexample: the fixture user has the two-factor flag
enabled, yet login with the correct email and password returns a signed
access token directly - no transitional state exists and no
loginWithTwoFactor operation is implemented. -/
theorem login_twofa_gate_cx :
    twoFaUser.isTwoFA = true
    ∧ login twoFaDb { email := "tfa@example.com", password := "tfa-pw" }
      = .ok (twoFaDb, { userId := some 0 }) :=
  ⟨rfl, rfl⟩

/-- Claim C5 (amended): login never consults the two-factor flag: for
every user with isTwoFA enabled, login with the correct email and
password returns the signed token directly, exactly as for any other
user. -/
theorem login_ignores_twofa (db : Db) (ld : LoginData) (fu : User) (h : String)
    (hfind : findUserByEmail db ld.email = some fu)
    (hpw : fu.password = some h)
    (hcmp : bcryptCompare ld.password h = true)
    (h2fa : fu.isTwoFA = true) :
    login db ld = .ok (db, { userId := some fu.id }) := by
  simp [login, hfind, hpw, hcmp]

/-- Claim C5 witness: the two-factor fixture user logs in and receives a
token directly. -/
theorem login_ignores_twofa_witness :
    login twoFaDb { email := "tfa@example.com", password := "tfa-pw" }
      = .ok (twoFaDb, { userId := some 0 }) :=
  login_ignores_twofa twoFaDb { email := "tfa@example.com", password := "tfa-pw" }
    twoFaUser (bcryptHash 12 "tfa-pw") rfl rfl rfl rfl

/-- Claim C7 counterexample: the fixture user is deactivated (isActive
false), yet the Google callback issues a signed token for that user
instead of failing with AccountDisabled. -/
theorem oauth_inactive_cx :
    inactiveUser.isActive = false
    ∧ (OAuthGoogleCallback inactiveDb goneGoogle).2 = { userId := some 0 } :=
  ⟨rfl, rfl⟩

/-- Claim C7 (amended): the Google callback never consults the active
flag: when the asserted email belongs to a deactivated user it proceeds
exactly as for an active one, issuing a signed token for that user (and
leaving the user table unchanged); no AccountDisabled failure exists in
the flow. -/
theorem oauth_callback_ignores_active_flag (db : Db) (gu : GoogleUser) (fu : User)
    (hfind : findUserByEmail db gu.email = some fu)
    (hact : fu.isActive = false) :
    (OAuthGoogleCallback db gu).2 = { userId := some fu.id }
    ∧ (OAuthGoogleCallback db gu).1.users = db.users := by
  cases hg : (db.oauthAccounts.filter (fun a => a.userId == fu.id)).find?
      (fun a => a.provider == OAuthProvider.Google) with
  | none => simp [OAuthGoogleCallback, hfind, hg]
  | some acc => simp [OAuthGoogleCallback, hfind, hg]

/-- Claim C7 witness: the deactivated fixture user still receives a
token from the callback. -/
theorem oauth_callback_ignores_active_flag_witness :
    (OAuthGoogleCallback inactiveDb goneGoogle).2 = { userId := some 0 } :=
  (oauth_callback_ignores_active_flag inactiveDb goneGoogle inactiveUser
    rfl rfl).1

/-- Claim C9 counterexample: logging in as the fixture password user
(role CUSTOMER) yields a token whose payload carries only the user id;
its role field is absent, so verification cannot resolve the role the
claim promises. -/
theorem token_omits_role_cx :
    login loginDb { email := "pw@example.com", password := "correct-pw" }
      = .ok (loginDb, { userId := some 1, id := none, role := none })
    ∧ pwUser.role = Role.CUSTOMER
    ∧ ({ userId := some 1, id := none, role := none } : JwtPayload).role
        ≠ some Role.CUSTOMER :=
  ⟨rfl, rfl, by decide⟩

/-- Claim C9 (amended): every token issued by login or register encodes
only the user id: the payload is exactly the record with userId set and
both id and role absent, so verifying it resolves the user id but never
a role. -/
theorem tokens_encode_only_user_id (db : Db) (ld : LoginData) (rd : RegisterData)
    (fu : User) (h : String) :
    (findUserByEmail db ld.email = some fu → fu.password = some h →
      bcryptCompare ld.password h = true →
      login db ld = .ok (db, { userId := some fu.id, id := none, role := none }))
    ∧ (findUserByEmail db rd.email = none →
      ∃ db1, register db rd
        = .ok (db1, { userId := some db.nextId, id := none, role := none })) := by
  constructor
  · intro hfind hpw hcmp
    simp [login, hfind, hpw, hcmp]
  · intro hnone
    refine ⟨{ db with
        users := db.users ++
          [{ id := db.nextId, email := rd.email,
             password := some (bcryptHash 12 rd.password),
             firstName := some rd.firstName, lastName := some rd.lastName,
             username := rd.username, role := .CUSTOMER,
             isEmailVerified := false, isTwoFA := false, isActive := true }],
        nextId := db.nextId + 1 }, ?_⟩
    unfold register
    rw [hnone]

/-- Claim C9 witness: the concrete login token of the password fixture
user carries no role field. -/
theorem tokens_encode_only_user_id_witness :
    login loginDb { email := "pw@example.com", password := "correct-pw" }
      = .ok (loginDb, { userId := some 1, id := none, role := none }) :=
  (tokens_encode_only_user_id loginDb
      { email := "pw@example.com", password := "correct-pw" } aliceReg
      pwUser (bcryptHash 12 "correct-pw")).1 rfl rfl rfl

/-- Claim C8: the guard is meant to read the authorization header, but
the code indexes the header map with the misspelled name authoriztion;
a request carrying a validly signed token in a correctly spelled
authorization header (and no cookie) is therefore rejected with
ForbiddenException instead of being resolved. The cookie fallback path
does succeed, but attaches id none and role none to the request, because
the guard destructures the fields id and role while the service signs
payloads carrying only userId. Absent tokens are still rejected closed. -/
theorem guard_misspelled_header_forbidden :
    guardVerify "goodtoken" = some { userId := some 7 }
    ∧ getHeader headerReq.headers "authorization" = some "Bearer goodtoken"
    ∧ canActivate guardVerify headerReq = .forbidden "Token invalid"
    ∧ canActivate guardVerify cookieReq = .allow none none
    ∧ canActivate guardVerify { headers := [], cookieToken := none }
      = .forbidden "Token invalid" :=
  ⟨rfl, rfl, rfl, rfl, rfl⟩

end Bookstore

namespace Bookstore

/-- Claim C10: no implemented auth operation touches the refresh_token
table - the Google callback, register and login all leave the
refresh-token store exactly as it was (login performs no write at all) -
and every successful operation returns a single signed JWT whose payload
is just the user id, never an access/refresh pair. -/
theorem auth_ops_leave_refresh_store_unchanged (db : Db) (gu : GoogleUser)
    (rd : RegisterData) (ld : LoginData) :
    (OAuthGoogleCallback db gu).1.refreshTokens = db.refreshTokens
    ∧ (∃ uid, (OAuthGoogleCallback db gu).2 = { userId := some uid })
    ∧ (∀ db1 p, register db rd = .ok (db1, p) →
        db1.refreshTokens = db.refreshTokens ∧ ∃ uid, p = { userId := some uid })
    ∧ (∀ db1 p, login db ld = .ok (db1, p) →
        db1 = db ∧ ∃ uid, p = { userId := some uid }) := by
  refine ⟨?_, ?_, ?_, ?_⟩
  · cases hf : findUserByEmail db gu.email with
    | none => simp [OAuthGoogleCallback, hf]
    | some fu =>
      cases hg : (db.oauthAccounts.filter (fun a => a.userId == fu.id)).find?
          (fun a => a.provider == OAuthProvider.Google) with
      | none => simp [OAuthGoogleCallback, hf, hg]
      | some acc => simp [OAuthGoogleCallback, hf, hg]
  · cases hf : findUserByEmail db gu.email with
    | none => exact ⟨db.nextId, by simp [OAuthGoogleCallback, hf, newGoogleUser]⟩
    | some fu =>
      cases hg : (db.oauthAccounts.filter (fun a => a.userId == fu.id)).find?
          (fun a => a.provider == OAuthProvider.Google) with
      | none => exact ⟨fu.id, by simp [OAuthGoogleCallback, hf, hg]⟩
      | some acc => exact ⟨fu.id, by simp [OAuthGoogleCallback, hf, hg]⟩
  · intro db1 p hok
    cases hf : findUserByEmail db rd.email with
    | some fu => simp [register, hf] at hok
    | none =>
      simp only [register, hf, Except.ok.injEq, Prod.mk.injEq] at hok
      obtain ⟨hdb, hp⟩ := hok
      subst hdb
      subst hp
      exact ⟨rfl, db.nextId, rfl⟩
  · intro db1 p hok
    cases hf : findUserByEmail db ld.email with
    | none => simp [login, hf] at hok
    | some fu =>
      cases hp : fu.password with
      | none => simp [login, hf, hp] at hok
      | some stored =>
        by_cases hc : bcryptCompare ld.password stored = true
        · simp only [login, hf, hp, hc, if_true, Except.ok.injEq,
            Prod.mk.injEq] at hok
          obtain ⟨hdb, hpp⟩ := hok
          subst hdb
          subst hpp
          exact ⟨rfl, fu.id, rfl⟩
        · have hc' : bcryptCompare ld.password stored = false := by simpa using hc
          simp [login, hf, hp, hc'] at hok

/-- Claim C10 witness: the concrete Google callback on the empty store
leaves the refresh-token table empty. -/
theorem auth_ops_leave_refresh_store_unchanged_witness :
    (OAuthGoogleCallback emptyDb freshGoogle).1.refreshTokens
      = emptyDb.refreshTokens :=
  (auth_ops_leave_refresh_store_unchanged emptyDb freshGoogle aliceReg
    { email := "x", password := "y" }).1

/-- Claim C4 counterexample: running the Google callback for a fresh
email creates the user with isEmailVerified left false (the column
default), not true as claimed; the user row and the OAuthAccount row are
created by two separate statements rather than one transaction. -/
theorem oauth_new_user_unverified_cx :
    (OAuthGoogleCallback emptyDb freshGoogle).1.users.map (fun u => u.isEmailVerified)
      = [false]
    ∧ (OAuthGoogleCallback emptyDb freshGoogle).1.users.map (fun u => u.password)
      = [none]
    ∧ (OAuthGoogleCallback emptyDb freshGoogle).1.oauthAccounts
      = [{ id := 1, userId := 0, provider := .Google, providerId := "google-sub-1" }] :=
  ⟨rfl, rfl, rfl⟩

/-- Claim C4 (amended): for a callback where no user has the asserted
email, the service creates the user with no password set but with
isEmailVerified left false (the column default, not true), then creates
an OAuthAccount row linking the Google provider and subject id to the
new user id; the two inserts are issued as two separate statements (the
sequential result is shown here; the source wraps them in no
transaction). -/
theorem oauth_callback_fresh_email (db : Db) (gu : GoogleUser)
    (h : findUserByEmail db gu.email = none) :
    OAuthGoogleCallback db gu =
      ({ db with
          users := db.users ++ [newGoogleUser db gu],
          oauthAccounts := db.oauthAccounts ++
            [{ id := db.nextId + 1, userId := db.nextId, provider := .Google,
               providerId := gu.sub }],
          nextId := db.nextId + 2 },
       { userId := some db.nextId })
    ∧ (newGoogleUser db gu).password = none
    ∧ (newGoogleUser db gu).isEmailVerified = false := by
  refine ⟨?_, rfl, rfl⟩
  show OAuthGoogleCallback db gu = _
  unfold OAuthGoogleCallback
  rw [h]
  rfl

/-- Claim C4 witness: the concrete fresh-email callback on the empty
store. -/
theorem oauth_callback_fresh_email_witness :
    OAuthGoogleCallback emptyDb freshGoogle =
      ({ emptyDb with
          users := emptyDb.users ++ [newGoogleUser emptyDb freshGoogle],
          oauthAccounts := emptyDb.oauthAccounts ++
            [{ id := emptyDb.nextId + 1, userId := emptyDb.nextId,
               provider := .Google, providerId := freshGoogle.sub }],
          nextId := emptyDb.nextId + 2 },
       { userId := some emptyDb.nextId }) :=
  (oauth_callback_fresh_email emptyDb freshGoogle rfl).1

end Bookstore

namespace Bookstore

/-- Claim C6 (against the spec-modelled Token Issuer rotation, since the
repository declares the refresh_token table but ships no rotation code):
refresh tokens are single-use. When rotating tokenA succeeds and yields
the freshly generated tokenB, the old record is deleted in the same
step, so a second rotation of tokenA fails with InvalidToken while
rotating tokenB succeeds; and rotating an absent or expired token always
fails with InvalidToken. -/
theorem refresh_rotation_single_use (db : Db) (now expiry : Nat)
    (tokenA freshToken : String) (db1 : Db) (p : JwtPayload) (tokenB : String)
    (hfresh : ∀ r ∈ db.refreshTokens, r.token ≠ freshToken)
    (hrot : rotateRefreshToken db now tokenA freshToken expiry
      = .ok (db1, p, tokenB))
    (hlive : now < expiry) :
    tokenB = freshToken
    ∧ (∀ f e, rotateRefreshToken db1 now tokenA f e
        = .error (.unauthorized "InvalidToken"))
    ∧ (∀ f e, ∃ w, rotateRefreshToken db1 now tokenB f e = .ok w)
    ∧ (∀ t f e, db.refreshTokens.find? (fun r => r.token == t) = none →
        rotateRefreshToken db now t f e = .error (.unauthorized "InvalidToken"))
    ∧ (∀ t f e r, db.refreshTokens.find? (fun r => r.token == t) = some r →
        r.expiresAt ≤ now →
        rotateRefreshToken db now t f e
          = .error (.unauthorized "InvalidToken")) := by
  cases hfind : db.refreshTokens.find? (fun r => r.token == tokenA) with
  | none => simp [rotateRefreshToken, hfind] at hrot
  | some r0 =>
    by_cases hexp : r0.expiresAt ≤ now
    · simp [rotateRefreshToken, hfind, hexp] at hrot
    · simp only [rotateRefreshToken, hfind, hexp, if_false, Except.ok.injEq,
        Prod.mk.injEq] at hrot
      obtain ⟨hdb, hp, htB⟩ := hrot
      have hr0mem : r0 ∈ db.refreshTokens := List.mem_of_find?_eq_some hfind
      have hr0tok : r0.token = tokenA := by
        have := List.find?_some hfind
        simpa using this
      have htok_ne : tokenA ≠ freshToken := fun he =>
        hfresh r0 hr0mem (hr0tok.trans he)
      subst hdb
      subst hp
      subst htB
      refine ⟨rfl, ?_, ?_, ?_, ?_⟩
      · intro f e
        have hnone :
            ((db.refreshTokens.filter (fun x => !(x.token == tokenA))) ++
              [(⟨db.nextId, freshToken, r0.userId, expiry⟩ : RefreshToken)]).find?
              (fun r => r.token == tokenA) = none := by
          rw [List.find?_eq_none]
          intro x hx
          rcases List.mem_append.mp hx with hx1 | hx2
          · have := (List.mem_filter.mp hx1).2
            simpa using this
          · have hx3 : x = (⟨db.nextId, freshToken, r0.userId, expiry⟩ : RefreshToken) := by
              simpa using hx2
            subst hx3
            simpa using fun he => htok_ne he.symm
        simp [rotateRefreshToken, hnone]
      · intro f e
        have hfindB :
            ((db.refreshTokens.filter (fun x => !(x.token == tokenA))) ++
              [(⟨db.nextId, freshToken, r0.userId, expiry⟩ : RefreshToken)]).find?
              (fun r => r.token == freshToken)
              = some (⟨db.nextId, freshToken, r0.userId, expiry⟩ : RefreshToken) := by
          rw [find?_append_of_none]
          · simp
          · rw [List.find?_eq_none]
            intro x hx
            have hxmem : x ∈ db.refreshTokens := (List.mem_filter.mp hx).1
            simpa using hfresh x hxmem
        have hnotexp : ¬ (expiry ≤ now) := Nat.not_le.mpr hlive
        rcases hq : rotateRefreshToken
            { db with
                refreshTokens :=
                  (db.refreshTokens.filter (fun x => !(x.token == tokenA))) ++
                  [(⟨db.nextId, freshToken, r0.userId, expiry⟩ : RefreshToken)]
                nextId := db.nextId + 1 } now freshToken f e with err | w
        · simp [rotateRefreshToken, hfindB, hnotexp] at hq
        · exact ⟨w, rfl⟩
      · intro t f e hn
        simp [rotateRefreshToken, hn]
      · intro t f e r hf2 he2
        simp [rotateRefreshToken, hf2, he2]

/-- Claim C6 witness: after the concrete rotation of tokenA on the
one-token fixture store, a second rotation of tokenA fails with
InvalidToken. -/
theorem refresh_rotation_single_use_witness :
    rotateRefreshToken
      { users := [], oauthAccounts := [],
        refreshTokens := [{ id := 5, token := "tokenB", userId := 1, expiresAt := 200 }],
        nextId := 6 } 10 "tokenA" "tokenC" 300
      = .error (.unauthorized "InvalidToken") :=
  (refresh_rotation_single_use refreshDb 10 200 "tokenA" "tokenB"
      { users := [], oauthAccounts := [],
        refreshTokens := [{ id := 5, token := "tokenB", userId := 1, expiresAt := 200 }],
        nextId := 6 }
      { userId := some 1 } "tokenB" (by decide) rfl (by decide)).2.1 "tokenC" 300

end Bookstore

namespace Bookstore

/-- Branch evaluation: when no user carries the email, the callback
creates the user and the Google account. -/
theorem callback_fresh (db : Db) (gu : GoogleUser)
    (h : findUserByEmail db gu.email = none) :
    OAuthGoogleCallback db gu =
      ({ db with
          users := db.users ++ [newGoogleUser db gu],
          oauthAccounts := db.oauthAccounts ++
            [(⟨db.nextId + 1, db.nextId, .Google, gu.sub⟩ : OAuthAccount)],
          nextId := db.nextId + 2 }, { userId := some db.nextId }) := by
  unfold OAuthGoogleCallback
  rw [h]
  rfl

/-- Branch evaluation: when the user exists but has no Google account,
the callback creates exactly the linking account row. -/
theorem callback_link (db : Db) (gu : GoogleUser) (fu : User)
    (hf : findUserByEmail db gu.email = some fu)
    (hg : userGoogleAccount db fu.id = none) :
    OAuthGoogleCallback db gu =
      ({ db with
          oauthAccounts := db.oauthAccounts ++
            [(⟨db.nextId, fu.id, .Google, gu.sub⟩ : OAuthAccount)],
          nextId := db.nextId + 1 }, { userId := some fu.id }) := by
  unfold userGoogleAccount at hg
  simp only [OAuthGoogleCallback, hf, hg]

/-- Branch evaluation: when the user exists and already has a Google
account, the callback performs no write. -/
theorem callback_nolink (db : Db) (gu : GoogleUser) (fu : User) (acc : OAuthAccount)
    (hf : findUserByEmail db gu.email = some fu)
    (hg : userGoogleAccount db fu.id = some acc) :
    OAuthGoogleCallback db gu = (db, { userId := some fu.id }) := by
  unfold userGoogleAccount at hg
  simp only [OAuthGoogleCallback, hf, hg]

/-- With the unique-email invariant, the user found by email is the only
user with that email. -/
theorem usersWithEmail_eq_singleton (db : Db) (e : String) (fu : User)
    (hwf : db.users.Pairwise (fun a b => a.email ≠ b.email))
    (hf : findUserByEmail db e = some fu) :
    usersWithEmail db e = [fu] := by
  unfold usersWithEmail
  unfold findUserByEmail at hf
  apply filter_eq_singleton_of_pairwise
  · refine hwf.imp ?_
    intro a b hne hpq
    exact hne ((beq_iff_eq.mp hpq.1).trans (beq_iff_eq.mp hpq.2).symm)
  · exact List.mem_of_find?_eq_some hf
  · have h1 := List.find?_some hf
    simpa using h1

end Bookstore

namespace Bookstore

/-- The fresh-email branch in terms of freshResultDb. -/
theorem callback_fresh2 (db : Db) (gu : GoogleUser)
    (h : findUserByEmail db gu.email = none) :
    OAuthGoogleCallback db gu
      = (freshResultDb db gu, { userId := some db.nextId }) :=
  callback_fresh db gu h

/-- The account-merge branch in terms of linkResultDb. -/
theorem callback_link2 (db : Db) (gu : GoogleUser) (fu : User)
    (hf : findUserByEmail db gu.email = some fu)
    (hg : userGoogleAccount db fu.id = none) :
    OAuthGoogleCallback db gu
      = (linkResultDb db fu.id gu, { userId := some fu.id }) :=
  callback_link db gu fu hf hg

/-- After the fresh-email branch, looking the email up finds the new
user. -/
theorem findUserByEmail_freshResult (db : Db) (gu : GoogleUser)
    (hf : findUserByEmail db gu.email = none) :
    findUserByEmail (freshResultDb db gu) gu.email
      = some (newGoogleUser db gu) := by
  unfold findUserByEmail at hf ⊢
  show (db.users ++ [newGoogleUser db gu]).find? (fun u => u.email == gu.email)
    = some (newGoogleUser db gu)
  rw [find?_append_of_none hf]
  simp [newGoogleUser]

/-- After the fresh-email branch, the new user owns exactly the created
Google account. -/
theorem userGoogleAccount_freshResult (db : Db) (gu : GoogleUser)
    (hlt : ∀ a ∈ db.oauthAccounts, a.userId < db.nextId) :
    userGoogleAccount (freshResultDb db gu) db.nextId
      = some (⟨db.nextId + 1, db.nextId, .Google, gu.sub⟩ : OAuthAccount) := by
  unfold userGoogleAccount
  show (((db.oauthAccounts ++
      [(⟨db.nextId + 1, db.nextId, .Google, gu.sub⟩ : OAuthAccount)]).filter
        (fun a => a.userId == db.nextId)).find?
      (fun a => a.provider == OAuthProvider.Google))
    = some (⟨db.nextId + 1, db.nextId, .Google, gu.sub⟩ : OAuthAccount)
  rw [List.filter_append]
  have h1 : db.oauthAccounts.filter (fun a => a.userId == db.nextId) = [] := by
    rw [List.filter_eq_nil_iff]
    intro a ha
    simp only [beq_iff_eq]
    exact Nat.ne_of_lt (hlt a ha)
  rw [h1]
  simp

/-- After the fresh-email branch, the new user has exactly one Google
account row. -/
theorem googleAccountsOf_freshResult (db : Db) (gu : GoogleUser)
    (hlt : ∀ a ∈ db.oauthAccounts, a.userId < db.nextId) :
    googleAccountsOf (freshResultDb db gu) db.nextId
      = [(⟨db.nextId + 1, db.nextId, .Google, gu.sub⟩ : OAuthAccount)] := by
  unfold googleAccountsOf
  show ((db.oauthAccounts ++
      [(⟨db.nextId + 1, db.nextId, .Google, gu.sub⟩ : OAuthAccount)]).filter
        (fun a => a.userId == db.nextId && a.provider == OAuthProvider.Google))
    = [(⟨db.nextId + 1, db.nextId, .Google, gu.sub⟩ : OAuthAccount)]
  rw [List.filter_append]
  have h1 : db.oauthAccounts.filter
      (fun a => a.userId == db.nextId && a.provider == OAuthProvider.Google)
      = [] := by
    rw [List.filter_eq_nil_iff]
    intro a ha hq
    rw [Bool.and_eq_true] at hq
    exact Nat.ne_of_lt (hlt a ha) (beq_iff_eq.mp hq.1)
  rw [h1]
  simp

/-- After the fresh-email branch, the new user is the only user with the
asserted email. -/
theorem usersWithEmail_freshResult (db : Db) (gu : GoogleUser)
    (hf : findUserByEmail db gu.email = none) :
    usersWithEmail (freshResultDb db gu) gu.email = [newGoogleUser db gu] := by
  unfold usersWithEmail
  unfold findUserByEmail at hf
  show (db.users ++ [newGoogleUser db gu]).filter (fun u => u.email == gu.email)
    = [newGoogleUser db gu]
  rw [List.filter_append, filter_eq_nil_of_find?_none hf]
  simp [newGoogleUser]

/-- After the account-merge branch, the matched user owns the created
Google account. -/
theorem userGoogleAccount_linkResult (db : Db) (gu : GoogleUser) (uid : Nat)
    (hg : userGoogleAccount db uid = none) :
    userGoogleAccount (linkResultDb db uid gu) uid
      = some (⟨db.nextId, uid, .Google, gu.sub⟩ : OAuthAccount) := by
  unfold userGoogleAccount at hg ⊢
  show (((db.oauthAccounts ++
      [(⟨db.nextId, uid, .Google, gu.sub⟩ : OAuthAccount)]).filter
        (fun a => a.userId == uid)).find?
      (fun a => a.provider == OAuthProvider.Google))
    = some (⟨db.nextId, uid, .Google, gu.sub⟩ : OAuthAccount)
  rw [List.filter_append]
  have h2 : ([(⟨db.nextId, uid, .Google, gu.sub⟩ : OAuthAccount)]).filter
      (fun a => a.userId == uid)
      = [(⟨db.nextId, uid, .Google, gu.sub⟩ : OAuthAccount)] := by
    simp
  rw [h2, find?_append_of_none hg]
  simp

/-- After the account-merge branch, the matched user has exactly one
Google account row. -/
theorem googleAccountsOf_linkResult (db : Db) (gu : GoogleUser) (uid : Nat)
    (hg : userGoogleAccount db uid = none) :
    googleAccountsOf (linkResultDb db uid gu) uid
      = [(⟨db.nextId, uid, .Google, gu.sub⟩ : OAuthAccount)] := by
  unfold userGoogleAccount at hg
  unfold googleAccountsOf
  show ((db.oauthAccounts ++
      [(⟨db.nextId, uid, .Google, gu.sub⟩ : OAuthAccount)]).filter
        (fun a => a.userId == uid && a.provider == OAuthProvider.Google))
    = [(⟨db.nextId, uid, .Google, gu.sub⟩ : OAuthAccount)]
  rw [List.filter_append]
  have h1 : db.oauthAccounts.filter
      (fun a => a.userId == uid && a.provider == OAuthProvider.Google) = [] := by
    rw [List.filter_eq_nil_iff]
    intro a ha hq
    rw [Bool.and_eq_true] at hq
    have hmem : a ∈ db.oauthAccounts.filter (fun x => x.userId == uid) :=
      List.mem_filter.mpr ⟨ha, hq.1⟩
    exact List.find?_eq_none.mp hg a hmem hq.2
  rw [h1]
  simp

/-- With the unique (userId, provider) invariant, a found Google account
of a user is the only Google account row of that user. -/
theorem googleAccountsOf_of_found (db : Db) (uid : Nat) (acc : OAuthAccount)
    (hwfA : db.oauthAccounts.Pairwise
      (fun a b => ¬(a.userId = b.userId ∧ a.provider = b.provider)))
    (hg : userGoogleAccount db uid = some acc) :
    googleAccountsOf db uid = [acc] := by
  unfold userGoogleAccount at hg
  unfold googleAccountsOf
  have hmemF : acc ∈ db.oauthAccounts.filter (fun a => a.userId == uid) :=
    List.mem_of_find?_eq_some hg
  have hmem : acc ∈ db.oauthAccounts := (List.mem_filter.mp hmemF).1
  have huid : (acc.userId == uid) = true := (List.mem_filter.mp hmemF).2
  have hprov := List.find?_some hg
  apply filter_eq_singleton_of_pairwise
  · refine hwfA.imp ?_
    intro a b hR hpq
    obtain ⟨hqa, hqb⟩ := hpq
    rw [Bool.and_eq_true] at hqa hqb
    exact hR ⟨(beq_iff_eq.mp hqa.1).trans (beq_iff_eq.mp hqb.1).symm,
      (beq_iff_eq.mp hqa.2).trans (beq_iff_eq.mp hqb.2).symm⟩
  · exact hmem
  · show (acc.userId == uid && acc.provider == OAuthProvider.Google) = true
    rw [Bool.and_eq_true]
    exact ⟨huid, by simpa using hprov⟩

end Bookstore

namespace Bookstore

/-- Claim C3: on a store satisfying the migration uniqueness invariants,
the Google callback is idempotent: the second call with the same profile
changes nothing and issues the same token; after the first call exactly
one user carries the asserted email and that user has exactly one Google
account row; and when the user already existed, the call either creates
exactly the one linking OAuthAccount row (when none existed for Google)
or performs no write at all (when one did). -/
theorem oauth_linking_idempotent (db : Db) (gu : GoogleUser) (hwf : Wf db) :
    OAuthGoogleCallback (OAuthGoogleCallback db gu).1 gu = OAuthGoogleCallback db gu
    ∧ (∃ u, usersWithEmail (OAuthGoogleCallback db gu).1 gu.email = [u]
        ∧ (googleAccountsOf (OAuthGoogleCallback db gu).1 u.id).length = 1
        ∧ (OAuthGoogleCallback db gu).2 = { userId := some u.id })
    ∧ (∀ fu, findUserByEmail db gu.email = some fu →
        (userGoogleAccount db fu.id = none →
          (OAuthGoogleCallback db gu).1.users = db.users
          ∧ (OAuthGoogleCallback db gu).1.oauthAccounts
            = db.oauthAccounts ++
              [(⟨db.nextId, fu.id, .Google, gu.sub⟩ : OAuthAccount)])
        ∧ (∀ acc, userGoogleAccount db fu.id = some acc →
            (OAuthGoogleCallback db gu).1 = db)) := by
  cases hf : findUserByEmail db gu.email with
  | none =>
    have hcall : OAuthGoogleCallback db gu
        = (freshResultDb db gu, { userId := some db.nextId }) :=
      callback_fresh2 db gu hf
    have hfA : findUserByEmail (freshResultDb db gu) gu.email
        = some (newGoogleUser db gu) :=
      findUserByEmail_freshResult db gu hf
    have hgA : userGoogleAccount (freshResultDb db gu) (newGoogleUser db gu).id
        = some (⟨db.nextId + 1, db.nextId, .Google, gu.sub⟩ : OAuthAccount) :=
      userGoogleAccount_freshResult db gu hwf.acctUserIdsLt
    refine ⟨?_, ?_, ?_⟩
    · rw [hcall]
      have h2 := callback_nolink (freshResultDb db gu) gu (newGoogleUser db gu)
        (⟨db.nextId + 1, db.nextId, .Google, gu.sub⟩ : OAuthAccount) hfA hgA
      exact h2
    · refine ⟨newGoogleUser db gu, ?_, ?_, ?_⟩
      · rw [hcall]
        exact usersWithEmail_freshResult db gu hf
      · rw [hcall]
        show (googleAccountsOf (freshResultDb db gu) db.nextId).length = 1
        rw [googleAccountsOf_freshResult db gu hwf.acctUserIdsLt]
        rfl
      · rw [hcall]
        rfl
    · intro fu hfu
      exact Option.noConfusion hfu
  | some fu =>
    cases hg : userGoogleAccount db fu.id with
    | none =>
      have hcall : OAuthGoogleCallback db gu
          = (linkResultDb db fu.id gu, { userId := some fu.id }) :=
        callback_link2 db gu fu hf hg
      have hfB : findUserByEmail (linkResultDb db fu.id gu) gu.email = some fu := hf
      have hgB : userGoogleAccount (linkResultDb db fu.id gu) fu.id
          = some (⟨db.nextId, fu.id, .Google, gu.sub⟩ : OAuthAccount) :=
        userGoogleAccount_linkResult db gu fu.id hg
      refine ⟨?_, ?_, ?_⟩
      · rw [hcall]
        exact callback_nolink (linkResultDb db fu.id gu) gu fu
          (⟨db.nextId, fu.id, .Google, gu.sub⟩ : OAuthAccount) hfB hgB
      · refine ⟨fu, ?_, ?_, ?_⟩
        · rw [hcall]
          show usersWithEmail (linkResultDb db fu.id gu) gu.email = [fu]
          exact usersWithEmail_eq_singleton db gu.email fu hwf.emailsUnique hf
        · rw [hcall]
          show (googleAccountsOf (linkResultDb db fu.id gu) fu.id).length = 1
          rw [googleAccountsOf_linkResult db gu fu.id hg]
          rfl
        · rw [hcall]
      · intro fu' hfu'
        injection hfu' with h
        subst h
        constructor
        · intro hg2
          rw [hcall]
          exact ⟨rfl, rfl⟩
        · intro acc hacc
          rw [hg] at hacc
          exact Option.noConfusion hacc
    | some acc =>
      have hcall : OAuthGoogleCallback db gu = (db, { userId := some fu.id }) :=
        callback_nolink db gu fu acc hf hg
      refine ⟨?_, ?_, ?_⟩
      · rw [hcall]
        exact hcall
      · refine ⟨fu, ?_, ?_, ?_⟩
        · rw [hcall]
          exact usersWithEmail_eq_singleton db gu.email fu hwf.emailsUnique hf
        · rw [hcall]
          show (googleAccountsOf db fu.id).length = 1
          rw [googleAccountsOf_of_found db fu.id acc hwf.acctKeyUnique hg]
          rfl
        · rw [hcall]
      · intro fu' hfu'
        injection hfu' with h
        subst h
        constructor
        · intro hg2
          rw [hg] at hg2
          exact Option.noConfusion hg2
        · intro acc' hacc'
          rw [hcall]

/-- Claim C3 witness: on a store whose only user is the password user
(unique email, no accounts), the merge branch runs and the second call
is a no-op with the same token. -/
theorem oauth_linking_idempotent_witness :
    OAuthGoogleCallback (OAuthGoogleCallback loginDb patGoogle).1 patGoogle
      = OAuthGoogleCallback loginDb patGoogle :=
  (oauth_linking_idempotent loginDb patGoogle
    ⟨by simp [loginDb, oauthOnlyUser, pwUser], by simp [loginDb, oauthOnlyUser, pwUser],
     by simp [loginDb], by decide, by decide⟩).1

end Bookstore
